import Mathlib

/-!
Shallow embedding of `buxom.pyx`, a recursive structural-validation engine
for nested dictionaries (Cython / Python 2 source).

Modelling conventions:
* Python dictionaries are association lists `List (String × PyVal)` without
  duplicate keys; iteration order is the list order (matching the source's
  single-construction dict literals).  Dictionary assignment to a key that is
  already present (`data[key] = v`, the only form of assignment the source
  performs on validated data) is modelled by `dupdate`, which rewrites the
  entry in place and preserves the key order.
* In-place mutation of the data dict is modelled by returning the mutated
  dict; exceptions are modelled with `Except PyErr`.
* Data values are the Python values exercised by the validators:
  int, float, str, bool, dict, None.  The source's leaf validators also
  contain an `isinstance(data[key], Schema)` test for data values that are
  themselves Schema objects; data mappings never contain validator objects
  in the modelled domain, so that guard is constant-false and its branch
  is not represented.
* `sys.maxint` (source line 177) is the 64-bit Python 2 value.
-/

/-- Python exception kinds relevant to the source.  `Invalid` (a `BuxomError`)
carries its message; the remaining constructors are builtin Python errors,
none of which is a subclass of `Invalid`. -/
inductive PyErr where
  /-- `Invalid` raised with the given message (the bare `raise Invalid` in
  `Length.validate` / `Range.validate` is modelled with an empty message). -/
  | invalid (msg : String)
  /-- `TypeError` (wrong argument arity, non-dict argument for a typed `dict`
  parameter, calling `None`, subscripting `False`, `len()` of an unsized
  value). -/
  | typeError
  /-- `UnboundLocalError`: a local variable read before its assignment. -/
  | unboundLocalError
  /-- `AttributeError`: attribute never assigned on the instance. -/
  | attributeError
  /-- `IndexError`: `list[0]` of an empty list, or a `str.format` call whose
  format string has more placeholders than arguments. -/
  | indexError
  /-- `KeyError`: subscripting a dict with an absent key. -/
  | keyError
  /-- `ValueError`: e.g. `int()` of a non-numeric string. -/
  | valueError
deriving DecidableEq

/-- The Python type references that appear as schema values
(`int`, `float`, `str`, `bool`, `dict`, `NoneType`). -/
inductive Ty where
  | intTy
  | floatTy
  | strTy
  | boolTy
  | dictTy
  | noneTy
deriving DecidableEq

/-- How a type reference prints inside an error message
(`'...'.format(schema[key])` at source line 112). -/
def tyRepr : Ty → String
  | .intTy => "int"
  | .floatTy => "float"
  | .strTy => "str"
  | .boolTy => "bool"
  | .dictTy => "dict"
  | .noneTy => "NoneType"

/-- Python data values handled by the validators. -/
inductive PyVal where
  | int (n : Int)
  | float (q : Rat)
  | str (s : String)
  | bool (b : Bool)
  | dict (d : List (String × PyVal))
  | none

/-- A Python dict, as an association list in iteration order. -/
abbrev PyDict := List (String × PyVal)

/-- `key in data`. -/
def dcontains (d : PyDict) (k : String) : Bool :=
  d.any (fun kv => kv.1 == k)

/-- Lookup of a key in a dict. -/
def dfind : PyDict → String → Option PyVal
  | [], _ => Option.none
  | (k2, v) :: rest, k => if k2 == k then some v else dfind rest k

/-- `data[key]` for a key known to be present (callers guard with
`dcontains`; the default is never observed). -/
def dget (d : PyDict) (k : String) : PyVal :=
  (dfind d k).getD .none

/-- `data[key] = v` for a key already present: the entry is rewritten in
place, preserving dict order. -/
def dupdate (d : PyDict) (k : String) (v : PyVal) : PyDict :=
  d.map (fun kv => if kv.1 == k then (kv.1, v) else kv)

/-- `isinstance(v, t)` for the modelled values and type references.
In Python, `bool` is a subclass of `int`, so a bool is an instance of
both `bool` and `int`. -/
def instanceOf : PyVal → Ty → Bool
  | .int _, .intTy => true
  | .bool _, .intTy => true
  | .bool _, .boolTy => true
  | .float _, .floatTy => true
  | .str _, .strTy => true
  | .dict _, .dictTy => true
  | .none, .noneTy => true
  | _, _ => false

/-- `len(v)`: defined for sized values (str, dict); `TypeError` otherwise. -/
def pyLen : PyVal → Except PyErr Int
  | .str s => .ok (s.length : Int)
  | .dict d => .ok (d.length : Int)
  | _ => .error .typeError

/-- Truncation of a rational toward zero, as `int(float)` behaves. -/
def ratTrunc (q : Rat) : Int :=
  if q.num < 0 then -(Int.ofNat (q.num.natAbs / q.den)) else Int.ofNat (q.num.natAbs / q.den)

/-- Accumulating decimal-digit parser over a character list. -/
def parseDigitsAux : List Char → Nat → Option Nat
  | [], acc => some acc
  | c :: rest, acc =>
    if c.isDigit then parseDigitsAux rest (acc * 10 + (c.toNat - 48))
    else Option.none

/-- `int(s)` on a string: the plain decimal forms (an optional leading
minus followed by digits); anything else raises `ValueError`. -/
def pyParseInt (s : String) : Option Int :=
  match s.toList with
  | [] => Option.none
  | '-' :: rest =>
    if rest.isEmpty then Option.none
    else (parseDigitsAux rest 0).map (fun n => -(n : Int))
  | cs => (parseDigitsAux cs 0).map (fun n => (n : Int))

/-- `int(v)`: the Python `int` constructor on the modelled values. -/
def pyToInt : PyVal → Except PyErr PyVal
  | .int n => .ok (.int n)
  | .bool b => .ok (.int (if b then 1 else 0))
  | .float q => .ok (.int (ratTrunc q))
  | .str s =>
    match pyParseInt s with
    | some n => .ok (.int n)
    | Option.none => .error .valueError
  | _ => .error .typeError

/-- The unary transforms stored by `Callable` / `Coerce`.  The source accepts
an arbitrary callable (lines 156-159, 171-172); the model provides the
constructor the claims exercise, the builtin `int`. -/
inductive PyFun where
  | intFun
deriving DecidableEq

/-- Application of a stored transform to a value. -/
def applyFun : PyFun → PyVal → Except PyErr PyVal
  | .intFun, v => pyToInt v

/-- A schema key: a raw scalar, or a key wrapped by `Required` / `Optional`.
`KeyWrapper.__init__` (line 44) stores `_get_key(key)`, so nested wrappers
collapse to the underlying scalar at construction time and each wrapper
carries its unwrapped key. -/
inductive SKey where
  | raw (k : String)
  | required (k : String)
  | optional (k : String)
deriving DecidableEq

/-- `KeyWrapper._get_key` applied to a schema key: the underlying scalar. -/
def unwrap : SKey → String
  | .raw k => k
  | .required k => k
  | .optional k => k

/-- Whether the key is wrapped in `Required`. -/
def isRequiredKey : SKey → Bool
  | .required _ => true
  | _ => false

/-- The combination predicate stored in `_validate_function`:
`any` for `Any`, `all` for `All`. -/
inductive Comb where
  | anyC
  | allC
deriving DecidableEq

/-- Applying `any` / `all` to a list of booleans. -/
def combApply : Comb → List Bool → Bool
  | .anyC, l => l.any id
  | .allC, l => l.all id

/-- A schema value: a type reference, a nested `Schema`, or one of the
constraint-validator objects (all of which subclass `Schema` in the source).
`anyAllV` carries `_types` and `_validate_function` as optional fields
because the source's `Any` / `All` constructors fail to assign `_types`
(they skip `AnyAll.__init__`) and `AnyAll.__init__` leaves
`_validate_function` as `None`. -/
inductive SVal where
  /-- a plain type reference (not a `Schema` instance) -/
  | typ (t : Ty)
  /-- a nested plain `Schema` with its entry list and `extra` flag -/
  | schema (entries : List (SKey × SVal)) (extra : Bool)
  /-- a `Callable` / `Coerce` object holding its transform -/
  | callableV (f : PyFun)
  /-- an `AnyAll` object: `_types` (if ever assigned) and
  `_validate_function` (if not `None`) -/
  | anyAllV (types : Option (List SVal)) (vfun : Option Comb)
  /-- a `Length` object holding `_min` and `_max` -/
  | lengthV (minL maxL : Int)
  /-- a `Range` object holding `_start`, `_stop`, `_step` -/
  | rangeV (start stop step : Int)

/-- `isinstance(x, Schema)` for schema values: every constraint validator
subclasses `Schema`; only a plain type reference is not a `Schema`. -/
def isSchemaInstance : SVal → Bool
  | .typ _ => false
  | _ => true

/-- The `Callable` / `Coerce` / `Length` / `Range` objects, whose
`validate(self, data)` takes no further positional arguments. -/
def isLeafV : SVal → Bool
  | .callableV _ => true
  | .lengthV _ _ => true
  | .rangeV _ _ _ => true
  | _ => false

/-- Message of the `Invalid` raised for a type mismatch
(source line 112). -/
def typeMsg (ak : String) (t : Ty) : String :=
  s!"data[{ak}] is not an instance of type {tyRepr t}"

/-- Message of the `Invalid` raised by `Required.validate`
(source line 66). -/
def requiredMsg (k : String) : String :=
  s!"Required key {k} not found in data"

/-- `Required.validate` (source lines 64-67): `Invalid` if the unwrapped key
is absent from `data`, otherwise `data` unchanged. -/
def requiredValidate (k : String) (data : PyDict) : Except PyErr PyDict :=
  if dcontains data k then .ok data
  else .error (.invalid (requiredMsg k))

/-- `Optional.validate` (source lines 77-78): always returns `data`. -/
def optionalValidate (data : PyDict) : Except PyErr PyDict :=
  .ok data

/-- Step 2b of `Schema.validate` (source lines 104-105): if the schema key is
a `KeyWrapper`, invoke its `validate` on `data` (the returned dict is
discarded); raw keys are not wrappers, so nothing runs. -/
def keyCheck (k : SKey) (data : PyDict) : Except PyErr PyDict :=
  match k with
  | .raw _ => .ok data
  | .optional _ => optionalValidate data
  | .required s => requiredValidate s data

/-- `sys.maxint` on 64-bit Python 2, the default `_max` of `Length`
(source line 177): a very large sentinel standing for "unbounded". -/
def sysMaxint : Int := 9223372036854775807

/-- The default `_min` of `Length` (source line 177). -/
def lengthMinDefault : Int := 0

/-- `Length.validate` (source lines 181-189).  It iterates the keys of
`data`; for each value it checks `min <= len(value) <= max`, re-assigning the
unchanged value on success (`data[key] = data[key]`, a no-op) and raising a
bare `Invalid` otherwise.  The function has no `return`, so it returns
`None` on success, modelled as `Unit`.  (Data values are never `Schema`
instances in the modelled domain, so the `isinstance(data[key], Schema)`
branch at lines 183-184 is not represented.) -/
def lengthValidate (minL maxL : Int) : PyDict → Except PyErr Unit
  | [] => .ok ()
  | (_, v) :: rest =>
    match pyLen v with
    | .error e => .error e
    | .ok n =>
      if minL ≤ n && n ≤ maxL then lengthValidate minL maxL rest
      else .error (.invalid "")

/-- `Callable.validate` (source lines 161-166).  It iterates the keys of
`data` and overwrites each value with `self._callable(value)` in place.
The source has no `return` statement (it returns `None`); since the model
is pure, the mutated dict is returned here to represent the in-place
update.  (The `isinstance(data[key], Schema)` branch at lines 163-164 is
not represented, as above.) -/
def callableValidate (f : PyFun) : PyDict → Except PyErr PyDict
  | [] => .ok []
  | (k, v) :: rest =>
    match applyFun f v with
    | .error e => .error e
    | .ok nv =>
      match callableValidate f rest with
      | .error e => .error e
      | .ok rest2 => .ok ((k, nv) :: rest2)

/-- One data value's check inside `AnyAll.validate` (source line 134): the
`isinstance` results of the value against every non-`Schema` entry of
`_types`, combined by `_validate_function`. -/
def anyAllCheck (ts : List SVal) (comb : Comb) (v : PyVal) : Bool :=
  combApply comb
    ((ts.filter (fun t => !isSchemaInstance t)).map
      (fun t =>
        match t with
        | .typ ty => instanceOf v ty
        | _ => false))

/-- The per-key loop of `AnyAll.validate` (source lines 130-135).  For each
key: the argument generator expression evaluates `self._types` first
(`AttributeError` if the attribute was never assigned — the `Any` / `All`
constructors skip `AnyAll.__init__`); then `self._validate_function` is
called (`TypeError` if it is still `None`); if the combined check is false,
the `raise Invalid(...)` never completes, because its message
`'data[{}] is not in types {}'.format(lst)` supplies one argument to a
two-placeholder format string, which raises `IndexError`. -/
def anyAllLoop (types : Option (List SVal)) (vfun : Option Comb) :
    PyDict → Except PyErr Unit
  | [] => .ok ()
  | (_, v) :: rest =>
    match types with
    | Option.none => .error .attributeError
    | some ts =>
      match vfun with
      | Option.none => .error .typeError
      | some comb =>
        if anyAllCheck ts comb v then anyAllLoop types vfun rest
        else .error .indexError

/-- The last key of a nonempty dict (the loop variable `key` after the
`for` loop of `AnyAll.validate`). -/
def lastKeyOf : PyDict → String
  | [] => ""
  | [(k, _)] => k
  | _ :: rest => lastKeyOf rest

/-- `AnyAll.validate` (source lines 128-137).  `key = data.keys()[0]` raises
`IndexError` on an empty dict; then the per-key loop runs; on success the
returned value is the single-entry dict `{key: data[key]}` for the last
iterated key.  (Its signature `validate(self, dict data, *args, **kwargs)`
accepts extra positional arguments, unlike the other leaf validators.) -/
def anyAllValidate (types : Option (List SVal)) (vfun : Option Comb)
    (data : PyDict) : Except PyErr PyDict :=
  match data with
  | [] => .error .indexError
  | _ =>
    match anyAllLoop types vfun data with
    | .error e => .error e
    | .ok _ => .ok [(lastKeyOf data, dget data (lastKeyOf data))]

/-- Constructor arguments, for modelling `__init__` calls. -/
inductive CtorArg where
  | tyRef (t : Ty)
  | dictLit (d : PyDict)
  | boolLit (b : Bool)

/-- `Any.__init__` / `All.__init__` (source lines 142-144 and 149-151) call
`super(AnyAll, self).__init__(*args)`, which resolves past `AnyAll` to
`Schema.__init__(self, dict schema, bool extra=False)` — not to
`AnyAll.__init__` — so `_types` is never assigned.  `Schema.__init__`'s
`schema` parameter is typed `dict`, so any non-dict first argument (such as
a type reference) raises `TypeError` at the call; so do a missing argument,
more than two arguments, or a non-bool second argument.  On the one
succeeding shape (a dict first argument) the object's
`_validate_function` is then assigned but `_types` is still missing. -/
def anyAllSubInit (comb : Comb) (args : List CtorArg) :
    Except PyErr (Option (List SVal) × Option Comb) :=
  match args with
  | [.dictLit _] => .ok (Option.none, some comb)
  | [.dictLit _, .boolLit _] => .ok (Option.none, some comb)
  | _ => .error .typeError

/-- `Any(args...)`. -/
def anyInit (args : List CtorArg) : Except PyErr (Option (List SVal) × Option Comb) :=
  anyAllSubInit .anyC args

/-- `All(args...)`. -/
def allInit (args : List CtorArg) : Except PyErr (Option (List SVal) × Option Comb) :=
  anyAllSubInit .allC args

/-- The result of `Schema.validate`: the data dict on success, or the
literal `False` when a caught `Invalid` is suppressed. -/
inductive VRet where
  | retDict (d : PyDict)
  | retFalse

/-- The `try/except Invalid` around the per-key loop of `Schema.validate`
(source lines 101-119): a caught `Invalid` yields `False` when
`suppress_exception` is true and is re-raised otherwise; any other error
propagates; on success the (possibly mutated) data dict is returned. -/
def catchSuppress (suppress : Bool) : Except PyErr PyDict → Except PyErr VRet
  | .ok d => .ok (.retDict d)
  | .error (.invalid m) => if suppress then .ok .retFalse else .error (.invalid m)
  | .error e => .error e

mutual

/-- The body of `Schema.validate` (source lines 89-119), without the dead
`partial` parameter (see `Schema.validate` below).

If `self._extra` is true, the body reads the local variable `schema`
(line 96) before its assignment `schema = self._schema` (line 100), so
every such call raises `UnboundLocalError`; the key-set comparison and its
`Invalid` are unreachable.  Otherwise the per-key loop runs inside
`try/except Invalid`. -/
def schemaValidateCore (entries : List (SKey × SVal)) (extra : Bool)
    (data : PyDict) (suppress : Bool) : Except PyErr VRet :=
  if extra then .error .unboundLocalError
  else catchSuppress suppress (validateLoop entries data)
termination_by (sizeOf entries, 1)

/-- The per-key loop of `Schema.validate` (source lines 102-112), threading
the mutated data dict. -/
def validateLoop : List (SKey × SVal) → PyDict → Except PyErr PyDict
  | [], data => .ok data
  | (k, v) :: rest, data =>
    match entryStep k v data with
    | .error e => .error e
    | .ok d2 => validateLoop rest d2
termination_by l _ => (sizeOf l, 0)

/-- Processing of a single schema entry (source lines 103-112):
resolve `actual_key`; run the key wrapper's `validate` if the key is
wrapped; then dispatch on the schema value.

* a nested value that is a `Schema` instance is reached through
  `schema[key].validate({actual_key: data[actual_key]}, suppress_exception)`
  (line 109) — the second positional argument lands in the callee's dead
  `partial` parameter, so a plain nested `Schema` runs with its own
  `suppress_exception` defaulting to `False`; the subscript
  `[actual_key]` of the call's result raises `TypeError` on `False` and
  `KeyError` if the key is absent, and the result is written back into
  `data[actual_key]`;
* a `Callable` / `Coerce` / `Length` / `Range` value is also a `Schema`
  instance, but its `validate(self, data)` accepts no second positional
  argument, so the two-argument call raises `TypeError`;
* an `AnyAll` value accepts the extra argument (`*args`) and its
  `validate` body runs;
* a plain type reference: `Invalid` if the key is present and the value is
  not an instance of the type;
* in every dispatch, an absent key is skipped. -/
def entryStep (k : SKey) (v : SVal) (data : PyDict) : Except PyErr PyDict :=
  match keyCheck k data with
  | .error e => .error e
  | .ok _ =>
    let ak := unwrap k
    match v with
    | .typ t =>
      if dcontains data ak && !instanceOf (dget data ak) t then
        .error (.invalid (typeMsg ak t))
      else .ok data
    | .schema ne nx =>
      if dcontains data ak then
        match schemaValidateCore ne nx [(ak, dget data ak)] false with
        | .ok (.retDict d) =>
          match dfind d ak with
          | some nv => .ok (dupdate data ak nv)
          | Option.none => .error .keyError
        | .ok .retFalse => .error .typeError
        | .error e => .error e
      else .ok data
    | .anyAllV ts vf =>
      if dcontains data ak then
        match anyAllValidate ts vf [(ak, dget data ak)] with
        | .ok d =>
          match dfind d ak with
          | some nv => .ok (dupdate data ak nv)
          | Option.none => .error .keyError
        | .error e => .error e
      else .ok data
    | .callableV _ =>
      if dcontains data ak then .error .typeError else .ok data
    | .lengthV _ _ =>
      if dcontains data ak then .error .typeError else .ok data
    | .rangeV _ _ _ =>
      if dcontains data ak then .error .typeError else .ok data
termination_by (sizeOf v, 0)

end

/-- `Schema.validate(self, data, partial=False, suppress_exception=False)`
(source lines 89-119).  The `partial` parameter is accepted but never read
anywhere in the body — the only thing ever passed into that slot is the
`suppress_exception` value at the recursive call on line 109, where it is
likewise never read — so the recursion is factored through
`schemaValidateCore`, which omits the dead parameter; this wrapper carries
the full signature. -/
def Schema.validate (entries : List (SKey × SVal)) (extra : Bool)
    (data : PyDict) (pFlag suppress : Bool) : Except PyErr VRet :=
  schemaValidateCore entries extra data suppress

mutual

/-- Modelled from the spec, for comparison with `schemaValidateCore`:
the validation engine as §4.2 step 2c words it — "recursively validate the
single-entry mapping `{actualKey: data[actualKey]}` against the nested
Schema, **passing through `suppressException`**" — i.e. with the
`suppress_exception` value delivered to the recursive call's
`suppress_exception` parameter rather than to its dead `partial`
parameter.  Everything else is as in the source. -/
def specC3Core (entries : List (SKey × SVal)) (extra : Bool)
    (data : PyDict) (suppress : Bool) : Except PyErr VRet :=
  if extra then .error .unboundLocalError
  else catchSuppress suppress (specC3Loop entries data suppress)
termination_by (sizeOf entries, 1)

/-- Per-key loop of the spec-worded variant (suppress threaded through). -/
def specC3Loop : List (SKey × SVal) → PyDict → Bool → Except PyErr PyDict
  | [], data, _ => .ok data
  | (k, v) :: rest, data, suppress =>
    match specC3Entry k v data suppress with
    | .error e => .error e
    | .ok d2 => specC3Loop rest d2 suppress
termination_by l _ _ => (sizeOf l, 0)

/-- Entry processing of the spec-worded variant: identical to `entryStep`
except that the nested plain-`Schema` call receives `suppress` in its
`suppress_exception` slot; a recursive call that returns `False` is then
subscripted, raising `TypeError`. -/
def specC3Entry (k : SKey) (v : SVal) (data : PyDict) (suppress : Bool) :
    Except PyErr PyDict :=
  match keyCheck k data with
  | .error e => .error e
  | .ok _ =>
    let ak := unwrap k
    match v with
    | .typ t =>
      if dcontains data ak && !instanceOf (dget data ak) t then
        .error (.invalid (typeMsg ak t))
      else .ok data
    | .schema ne nx =>
      if dcontains data ak then
        match specC3Core ne nx [(ak, dget data ak)] suppress with
        | .ok (.retDict d) =>
          match dfind d ak with
          | some nv => .ok (dupdate data ak nv)
          | Option.none => .error .keyError
        | .ok .retFalse => .error .typeError
        | .error e => .error e
      else .ok data
    | .anyAllV ts vf =>
      if dcontains data ak then
        match anyAllValidate ts vf [(ak, dget data ak)] with
        | .ok d =>
          match dfind d ak with
          | some nv => .ok (dupdate data ak nv)
          | Option.none => .error .keyError
        | .error e => .error e
      else .ok data
    | .callableV _ =>
      if dcontains data ak then .error .typeError else .ok data
    | .lengthV _ _ =>
      if dcontains data ak then .error .typeError else .ok data
    | .rangeV _ _ _ =>
      if dcontains data ak then .error .typeError else .ok data
termination_by (sizeOf v, 0)

end

/-- The spec-worded variant with the full `validate` signature. -/
def specC3Validate (entries : List (SKey × SVal)) (extra : Bool)
    (data : PyDict) (pFlag suppress : Bool) : Except PyErr VRet :=
  specC3Core entries extra data suppress

theorem dupdate_fst (d : PyDict) (k : String) (v : PyVal) :
    (dupdate d k v).map Prod.fst = d.map Prod.fst := by
  induction d with
  | nil => rfl
  | cons kv rest ih =>
    simp only [dupdate, List.map_cons] at ih ⊢
    congr 1
    split <;> rfl

theorem dcontains_eq_fst_any (d : PyDict) (s : String) :
    dcontains d s = (d.map Prod.fst).any (fun x => x == s) := by
  induction d with
  | nil => rfl
  | cons kv rest ih =>
    simp only [dcontains, List.any_cons, List.map_cons] at ih ⊢
    rw [ih]

theorem dcontains_dupdate (d : PyDict) (k : String) (v : PyVal) (s : String) :
    dcontains (dupdate d k v) s = dcontains d s := by
  rw [dcontains_eq_fst_any, dcontains_eq_fst_any, dupdate_fst]

theorem keyCheck_of_contains (k : SKey) (data : PyDict)
    (h : dcontains data (unwrap k) = true) : keyCheck k data = .ok data := by
  cases k with
  | raw s => rfl
  | optional s => rfl
  | required s =>
    simp only [unwrap] at h
    simp [keyCheck, requiredValidate, h]

theorem validateLoop_nil (data : PyDict) : validateLoop [] data = .ok data := by
  simp [validateLoop]

theorem validateLoop_cons (k : SKey) (v : SVal) (rest : List (SKey × SVal))
    (data : PyDict) :
    validateLoop ((k, v) :: rest) data =
      match entryStep k v data with
      | .error e => .error e
      | .ok d2 => validateLoop rest d2 := by
  simp [validateLoop]

theorem entryStep_skip (k : SKey) (v : SVal) (data : PyDict)
    (hreq : isRequiredKey k = false)
    (habs : dcontains data (unwrap k) = false) :
    entryStep k v data = .ok data := by
  have hk : keyCheck k data = .ok data := by
    cases k with
    | raw s => simp [keyCheck]
    | required s => simp [isRequiredKey] at hreq
    | optional s => simp [keyCheck, optionalValidate]
  cases v <;> simp [entryStep, hk, habs]

theorem entryStep_required_missing (s : String) (v : SVal) (data : PyDict)
    (habs : dcontains data s = false) :
    entryStep (.required s) v data = .error (.invalid (requiredMsg s)) := by
  cases v <;> simp [entryStep, keyCheck, requiredValidate, habs]

theorem entryStep_typ_pass (k : SKey) (t : Ty) (data : PyDict)
    (hin : dcontains data (unwrap k) = true)
    (hinst : instanceOf (dget data (unwrap k)) t = true) :
    entryStep k (.typ t) data = .ok data := by
  simp [entryStep, keyCheck_of_contains k data hin, hin, hinst]

theorem entryStep_typ_fail (k : SKey) (t : Ty) (data : PyDict)
    (hin : dcontains data (unwrap k) = true)
    (hinst : instanceOf (dget data (unwrap k)) t = false) :
    entryStep k (.typ t) data = .error (.invalid (typeMsg (unwrap k) t)) := by
  simp [entryStep, keyCheck_of_contains k data hin, hin, hinst]

theorem entryStep_leaf (k : SKey) (v : SVal) (data : PyDict)
    (hleaf : isLeafV v = true)
    (hin : dcontains data (unwrap k) = true) :
    entryStep k v data = .error .typeError := by
  cases v <;> simp [isLeafV] at hleaf <;>
    simp [entryStep, keyCheck_of_contains k data hin, hin]

theorem entryStep_contains (k : SKey) (v : SVal) (data d2 : PyDict)
    (h : entryStep k v data = .ok d2) (s : String) :
    dcontains d2 s = dcontains data s := by
  have hk : ∀ r, keyCheck k data = .ok r → r = data := by
    intro r hr
    cases k <;> simp [keyCheck, optionalValidate, requiredValidate] at hr <;>
      first
      | exact hr.symm
      | (split at hr <;> simp_all)
  cases v with
  | typ t =>
    simp [entryStep] at h
    rcases h1 : keyCheck k data with e | r
    · simp [h1] at h
    · have := hk r h1
      subst this
      simp [h1] at h
      split at h <;> simp_all
  | schema ne nx =>
    simp only [entryStep] at h
    rcases h1 : keyCheck k data with e | r
    · rw [h1] at h; simp at h
    · rw [h1] at h
      simp only at h
      by_cases hc : dcontains data (unwrap k) = true
      · simp only [hc, if_true] at h
        rcases h2 : schemaValidateCore ne nx [(unwrap k, dget data (unwrap k))] false
          with e2 | vr
        · rw [h2] at h; simp at h
        · rw [h2] at h
          cases vr with
          | retFalse => simp at h
          | retDict dd =>
            simp only at h
            rcases h3 : dfind dd (unwrap k) with _ | nv
            · rw [h3] at h; simp at h
            · rw [h3] at h
              simp only [Except.ok.injEq] at h
              rw [← h]
              exact dcontains_dupdate _ _ _ _
      · rw [if_neg hc] at h
        simp only [Except.ok.injEq] at h
        rw [← h]
  | anyAllV ts vf =>
    simp only [entryStep] at h
    rcases h1 : keyCheck k data with e | r
    · rw [h1] at h; simp at h
    · rw [h1] at h
      simp only at h
      by_cases hc : dcontains data (unwrap k) = true
      · simp only [hc, if_true] at h
        rcases h2 : anyAllValidate ts vf [(unwrap k, dget data (unwrap k))]
          with e2 | dd
        · rw [h2] at h; simp at h
        · rw [h2] at h
          simp only at h
          rcases h3 : dfind dd (unwrap k) with _ | nv
          · rw [h3] at h; simp at h
          · rw [h3] at h
            simp only [Except.ok.injEq] at h
            rw [← h]
            exact dcontains_dupdate _ _ _ _
      · rw [if_neg hc] at h
        simp only [Except.ok.injEq] at h
        rw [← h]
  | callableV f =>
    simp [entryStep] at h
    rcases h1 : keyCheck k data with e | r
    · simp [h1] at h
    · have := hk r h1
      subst this
      simp [h1] at h
      split at h <;> simp_all
  | lengthV a b =>
    simp [entryStep] at h
    rcases h1 : keyCheck k data with e | r
    · simp [h1] at h
    · have := hk r h1
      subst this
      simp [h1] at h
      split at h <;> simp_all
  | rangeV a b c =>
    simp [entryStep] at h
    rcases h1 : keyCheck k data with e | r
    · simp [h1] at h
    · have := hk r h1
      subst this
      simp [h1] at h
      split at h <;> simp_all

theorem schemaValidateCore_extra (entries : List (SKey × SVal)) (data : PyDict)
    (suppress : Bool) :
    schemaValidateCore entries true data suppress = .error .unboundLocalError := by
  simp [schemaValidateCore]

theorem schemaValidateCore_noextra (entries : List (SKey × SVal)) (data : PyDict)
    (suppress : Bool) :
    schemaValidateCore entries false data suppress =
      catchSuppress suppress (validateLoop entries data) := by
  simp [schemaValidateCore]

/-- A schema entry is skippable for `data`: not `Required`-wrapped and its
unwrapped key is absent. -/
def skipOk (data : PyDict) (kv : SKey × SVal) : Bool :=
  !isRequiredKey kv.1 && !dcontains data (unwrap kv.1)

/-- A schema entry passes without touching `data`: either skippable, or a
type-reference entry whose present value is an instance of the type. -/
def entryOkC1 (data : PyDict) (kv : SKey × SVal) : Bool :=
  skipOk data kv ||
    (match kv.2 with
     | .typ t => dcontains data (unwrap kv.1) && instanceOf (dget data (unwrap kv.1)) t
     | _ => false)

theorem validateLoop_skipAll_pre (pre l : List (SKey × SVal)) (data : PyDict)
    (hpre : pre.all (skipOk data) = true) :
    validateLoop (pre ++ l) data = validateLoop l data := by
  induction pre with
  | nil => simp
  | cons kv rest ih =>
    simp only [List.all_cons, Bool.and_eq_true] at hpre
    obtain ⟨h1, h2⟩ := hpre
    simp only [skipOk, Bool.and_eq_true, Bool.not_eq_true'] at h1
    rw [List.cons_append, validateLoop_cons, entryStep_skip kv.1 kv.2 data h1.1 h1.2]
    exact ih h2

theorem validateLoop_all_ok (entries : List (SKey × SVal)) (data : PyDict)
    (h : entries.all (entryOkC1 data) = true) :
    validateLoop entries data = .ok data := by
  induction entries with
  | nil => exact validateLoop_nil data
  | cons kv rest ih =>
    obtain ⟨k1, v1⟩ := kv
    simp only [List.all_cons, Bool.and_eq_true] at h
    obtain ⟨h1, h2⟩ := h
    have hstep : entryStep k1 v1 data = .ok data := by
      simp only [entryOkC1, Bool.or_eq_true] at h1
      rcases h1 with h1 | h1
      · simp only [skipOk, Bool.and_eq_true, Bool.not_eq_true'] at h1
        exact entryStep_skip k1 v1 data h1.1 h1.2
      · cases v1 with
        | typ t =>
          simp only [Bool.and_eq_true] at h1
          exact entryStep_typ_pass k1 t data h1.1 h1.2
        | schema ne nx => simp at h1
        | callableV f => simp at h1
        | anyAllV ts vf => simp at h1
        | lengthV a b => simp at h1
        | rangeV a b c => simp at h1
    rw [validateLoop_cons, hstep]
    exact ih h2

theorem validateLoop_no_ok_of_leaf (entries : List (SKey × SVal)) (data : PyDict)
    (h : ∃ kv ∈ entries, isLeafV kv.2 = true ∧ dcontains data (unwrap kv.1) = true) :
    ∀ d, validateLoop entries data ≠ .ok d := by
  induction entries generalizing data with
  | nil => simp at h
  | cons kv rest ih =>
    intro d hok
    rw [validateLoop_cons] at hok
    rcases h with ⟨kv2, hmem, hleaf, hin⟩
    rcases List.mem_cons.mp hmem with rfl | hmem2
    · rw [entryStep_leaf kv2.1 kv2.2 data hleaf hin] at hok
      simp at hok
    · rcases hstep : entryStep kv.1 kv.2 data with e | d2
      · rw [hstep] at hok; simp at hok
      · rw [hstep] at hok
        simp only at hok
        have hin2 : dcontains d2 (unwrap kv2.1) = true := by
          rw [entryStep_contains kv.1 kv.2 data d2 hstep]
          exact hin
        exact ih d2 ⟨kv2, hmem2, hleaf, hin2⟩ d hok

/-- Claim C9: the `partial` parameter of `Schema.validate` has no effect on
behavior: for every schema, data mapping and `suppressException` value,
`validate(data, partial=True, s)` and `validate(data, partial=False, s)`
produce the same result (same return value or same raised error) and the
same final state of the data mapping (the returned mapping models the
mutated state). -/
theorem claim9_partial_has_no_effect (entries : List (SKey × SVal)) (extra : Bool)
    (data : PyDict) (suppress : Bool) :
    Schema.validate entries extra data true suppress =
      Schema.validate entries extra data false suppress := rfl

/-- Witness for C9 at a concrete schema and data mapping. -/
theorem claim9_partial_has_no_effect_witness :
    Schema.validate [(.raw "a", .typ .intTy)] false [("a", .int 1)] true false =
      Schema.validate [(.raw "a", .typ .intTy)] false [("a", .int 1)] false false :=
  claim9_partial_has_no_effect [(.raw "a", .typ .intTy)] false [("a", .int 1)] false

/-- Claim C4: with `suppressException=true`, any `Invalid` raised inside the
per-key validation loop is caught and `validate` returns the literal `False`
instead of raising; any other outcome (success, or a non-`Invalid` error) is
unchanged; and a run with `suppressException=false` that succeeds returns the
data mapping — never the literal `False` — and the same success is returned
under `suppressException=true` as well, so `False` only ever arises from a
caught `Invalid`.  With `suppressException=false` the `Invalid` is re-raised
(the `match` equation read right-to-left). -/
theorem claim4_suppress_exception_semantics (entries : List (SKey × SVal))
    (extra : Bool) (data : PyDict) (pFlag : Bool) :
    (Schema.validate entries extra data pFlag true =
      match Schema.validate entries extra data pFlag false with
      | .error (.invalid _) => .ok .retFalse
      | x => x) ∧
    (∀ r, Schema.validate entries extra data pFlag false = .ok r →
      (∃ d, r = .retDict d) ∧
        Schema.validate entries extra data pFlag true = .ok r) := by
  cases extra with
  | true =>
    refine ⟨?_, ?_⟩
    · simp [Schema.validate, schemaValidateCore_extra]
    · intro r hr
      simp [Schema.validate, schemaValidateCore_extra] at hr
  | false =>
    refine ⟨?_, ?_⟩
    · simp only [Schema.validate, schemaValidateCore_noextra]
      rcases hl : validateLoop entries data with e | d
      · cases e <;> simp [catchSuppress]
      · simp [catchSuppress]
    · intro r hr
      simp only [Schema.validate, schemaValidateCore_noextra] at hr ⊢
      rcases hl : validateLoop entries data with e | d
      · rw [hl] at hr; cases e <;> simp [catchSuppress] at hr
      · rw [hl] at hr
        simp only [catchSuppress, Except.ok.injEq] at hr
        subst hr
        exact ⟨⟨d, rfl⟩, by simp [catchSuppress]⟩

/-- Witness for C4 at a concrete schema and data mapping: the successful
scenario returns the data mapping under both `suppressException` values. -/
theorem claim4_suppress_exception_semantics_witness :
    (∃ d, VRet.retDict [("a", PyVal.int 1)] = VRet.retDict d) ∧
      Schema.validate [(.raw "a", .typ .intTy)] false [("a", .int 1)] false true =
        .ok (.retDict [("a", .int 1)]) := by
  have hsucc : Schema.validate [(.raw "a", .typ .intTy)] false [("a", .int 1)]
      false false = .ok (.retDict [("a", .int 1)]) := by
    simp [Schema.validate, schemaValidateCore, validateLoop, entryStep, keyCheck,
      catchSuppress, dcontains, dget, dfind, unwrap, instanceOf]
  exact (claim4_suppress_exception_semantics
    [(.raw "a", .typ .intTy)] false [("a", .int 1)] false).2 _ hsucc

/-- Claim C1: for a schema with `extra=false`, entries whose key is raw or
`Optional`-wrapped and whose unwrapped key is absent from the data are
silently skipped — when every entry is either such a skippable entry or a
type-reference entry whose present value passes `isinstance`, `validate`
succeeds and returns the data mapping unchanged (so absent keys remain
absent in the returned mapping); and a type-reference entry whose unwrapped
key is present with a value that is not an instance of the type makes
`validate` fail with `Invalid` whose message names the key and the expected
type (entries before it being skippable). -/
theorem claim1_absent_skip_and_type_mismatch :
    (∀ (entries : List (SKey × SVal)) (data : PyDict) (pFlag suppress : Bool),
      entries.all (entryOkC1 data) = true →
      Schema.validate entries false data pFlag suppress = .ok (.retDict data)) ∧
    (∀ (pre : List (SKey × SVal)) (k : SKey) (t : Ty) (rest : List (SKey × SVal))
      (data : PyDict) (pFlag : Bool),
      pre.all (skipOk data) = true →
      dcontains data (unwrap k) = true →
      instanceOf (dget data (unwrap k)) t = false →
      Schema.validate (pre ++ (k, .typ t) :: rest) false data pFlag false =
        .error (.invalid (typeMsg (unwrap k) t))) := by
  constructor
  · intro entries data pFlag suppress h
    simp only [Schema.validate, schemaValidateCore_noextra]
    rw [validateLoop_all_ok entries data h]
    rfl
  · intro pre k t rest data pFlag hpre hin hinst
    simp only [Schema.validate, schemaValidateCore_noextra]
    rw [validateLoop_skipAll_pre pre _ data hpre, validateLoop_cons,
      entryStep_typ_fail k t data hin hinst]
    rfl

/-- Witness for C1: a schema of one `Optional`-wrapped and one raw entry,
both keys absent, succeeds and leaves the data unchanged; a present
non-instance value for a type-reference entry yields the `Invalid` naming
the key and the type. -/
theorem claim1_absent_skip_and_type_mismatch_witness :
    ([((SKey.optional "a"), SVal.typ .intTy),
      ((SKey.raw "b"), SVal.schema [] false)].all
        (entryOkC1 [("c", PyVal.int 1)]) = true) ∧
    Schema.validate [(.optional "a", .typ .intTy), (.raw "b", .schema [] false)]
        false [("c", .int 1)] false false = .ok (.retDict [("c", .int 1)]) ∧
    (([] : List (SKey × SVal)).all (skipOk [("tag", PyVal.str "x")]) = true) ∧
    Schema.validate [(.raw "tag", .typ .intTy)] false [("tag", .str "x")]
        false false = .error (.invalid (typeMsg "tag" .intTy)) := by
  refine ⟨by decide, ?_, by decide, ?_⟩
  · exact claim1_absent_skip_and_type_mismatch.1 _ _ _ _ (by decide)
  · exact claim1_absent_skip_and_type_mismatch.2 [] (.raw "tag") .intTy [] _ _
      (by decide) (by decide) (by decide)

/-- Claim C2: a schema containing a `Required(k)` entry, validated against
data in which `k` is absent, raises `Invalid` with the message
`Required key {k} not found in data` (entries before it being skippable);
and when `k` is present, `Required.validate` itself returns the data
mapping unchanged. -/
theorem claim2_required_key_enforced :
    (∀ (pre : List (SKey × SVal)) (k : String) (v : SVal)
      (rest : List (SKey × SVal)) (data : PyDict) (pFlag : Bool),
      pre.all (skipOk data) = true →
      dcontains data k = false →
      Schema.validate (pre ++ (.required k, v) :: rest) false data pFlag false =
        .error (.invalid (requiredMsg k))) ∧
    (∀ (k : String) (data : PyDict), dcontains data k = true →
      requiredValidate k data = .ok data) := by
  constructor
  · intro pre k v rest data pFlag hpre habs
    simp only [Schema.validate, schemaValidateCore_noextra]
    rw [validateLoop_skipAll_pre pre _ data hpre, validateLoop_cons,
      entryStep_required_missing k v data habs]
    rfl
  · intro k data h
    simp [requiredValidate, h]

/-- Witness for C2: `Required("x")` with `x` absent raises the named
`Invalid`; with `x` present, `Required.validate` returns the data. -/
theorem claim2_required_key_enforced_witness :
    (([] : List (SKey × SVal)).all (skipOk []) = true) ∧
    (dcontains [] "x" = false) ∧
    Schema.validate [(.required "x", .typ .intTy)] false [] false false =
      .error (.invalid (requiredMsg "x")) ∧
    (dcontains [("x", PyVal.int 1)] "x" = true) ∧
    requiredValidate "x" [("x", .int 1)] = .ok [("x", .int 1)] := by
  refine ⟨by decide, by decide, ?_, by decide, ?_⟩
  · exact claim2_required_key_enforced.1 [] "x" (.typ .intTy) [] [] false
      (by decide) (by decide)
  · exact claim2_required_key_enforced.2 "x" [("x", .int 1)] (by decide)

/-- Claim C10: a schema entry whose value is a `Callable`, `Coerce`,
`Length` or `Range` object, with its unwrapped key present in the data,
prevents `Schema.validate` from ever succeeding: these classes subclass
`Schema`, so the nested-`Schema` branch calls their one-parameter
`validate` with a second positional argument, raising `TypeError` — an
error that is not `Invalid` and is therefore neither caught nor converted
to `False` by `suppressException=true`.  Part one: no run of `validate`
on such a schema returns a data mapping; part two: when the offending
entry is first, the result is exactly `TypeError`, under either value of
`suppressException`. -/
theorem claim10_leaf_validator_values_always_error :
    (∀ (entries : List (SKey × SVal)) (extra : Bool) (data : PyDict)
      (pFlag suppress : Bool),
      entries.any (fun kv => isLeafV kv.2 && dcontains data (unwrap kv.1)) = true →
      ∀ d, Schema.validate entries extra data pFlag suppress ≠ .ok (.retDict d)) ∧
    (∀ (k : SKey) (v : SVal) (rest : List (SKey × SVal)) (data : PyDict)
      (pFlag suppress : Bool),
      isLeafV v = true →
      dcontains data (unwrap k) = true →
      Schema.validate ((k, v) :: rest) false data pFlag suppress =
        .error .typeError) := by
  constructor
  · intro entries extra data pFlag suppress h d hok
    have hex : ∃ kv ∈ entries, isLeafV kv.2 = true ∧
        dcontains data (unwrap kv.1) = true := by
      simpa [List.any_eq_true, Bool.and_eq_true] using h
    cases extra with
    | true => rw [Schema.validate, schemaValidateCore_extra] at hok; simp at hok
    | false =>
      rw [Schema.validate, schemaValidateCore_noextra] at hok
      rcases hl : validateLoop entries data with e | d2
      · rw [hl] at hok
        cases e <;> simp [catchSuppress] at hok <;>
          split at hok <;> simp at hok
      · exact validateLoop_no_ok_of_leaf entries data hex d2 hl
  · intro k v rest data pFlag suppress hleaf hin
    simp only [Schema.validate, schemaValidateCore_noextra]
    rw [validateLoop_cons, entryStep_leaf k v data hleaf hin]
    rfl

/-- Witness for C10: a `Length` value under a schema, with its key present,
produces `TypeError` even with `suppressException=true`. -/
theorem claim10_leaf_validator_values_always_error_witness :
    (isLeafV (SVal.lengthV 0 5) = true) ∧
    (dcontains [("n", PyVal.str "ab")] "n" = true) ∧
    Schema.validate [(.raw "n", .lengthV 0 5)] false [("n", .str "ab")]
      false true = .error .typeError := by
  refine ⟨by decide, by decide, ?_⟩
  exact claim10_leaf_validator_values_always_error.2 (.raw "n") (.lengthV 0 5)
    [] [("n", .str "ab")] false true (by decide) (by decide)

/-- Claim C5 (code bug in the source): `Schema.validate` on a schema
constructed with `extra=True` never reaches the key-set comparison — the
body reads the local `schema` (line 96) before its assignment (line 100),
so the call raises `UnboundLocalError`, not `Invalid`, even when the key
sets are exactly equal, and even with `suppressException=true` (the error
is raised before the `try` block and is not an `Invalid`). -/
theorem claim5_extra_true_always_unbound_local :
    Schema.validate [(.raw "a", .typ .intTy)] true [("a", .int 1)] false false =
      .error .unboundLocalError ∧
    Schema.validate [(.raw "a", .typ .intTy)] true [] false true =
      .error .unboundLocalError := by
  constructor <;> simp [Schema.validate, schemaValidateCore_extra]

/-- Claim C6 (code bug in the source): `Any(int, float)` and
`All(int, float)` cannot even be constructed — their `__init__` calls
`super(AnyAll, self).__init__`, which is `Schema.__init__`, whose typed
`dict schema` parameter rejects the type reference with `TypeError`
(and `_types` is never assigned on any path).  Separately, even on an
object carrying `_types` and `_validate_function`, the failure branch of
`AnyAll.validate` raises `IndexError` — the message format string has two
placeholders but receives one argument — instead of the intended
`Invalid`; the success branch does return the single-entry mapping, as
`Any(int, float)` on `{"x": 3.5}` would. -/
theorem claim6_any_all_construction_and_failure_broken :
    anyInit [.tyRef .intTy, .tyRef .floatTy] = .error .typeError ∧
    allInit [.tyRef .intTy, .tyRef .floatTy] = .error .typeError ∧
    anyAllValidate (some [.typ .intTy, .typ .floatTy]) (some .allC)
      [("x", .float ((7 : Rat)/2))] = .error .indexError ∧
    anyAllValidate (some [.typ .intTy, .typ .floatTy]) (some .anyC)
      [("x", .float ((7 : Rat)/2))] = .ok [("x", .float ((7 : Rat)/2))] := by
  refine ⟨rfl, rfl, rfl, rfl⟩

/-- Claim C7 (code bug in the source): validating `{"age": "5"}` against
`Schema({"age": Coerce(int)})` does not coerce — `Coerce` subclasses
`Schema`, so the nested-`Schema` branch calls `Coerce`'s one-parameter
`validate` with a second positional argument, raising `TypeError`.  The
transform itself does behave as the claim intends when reached directly:
`Callable.validate` applied to `{"age": "5"}` leaves the value equal to
the integer `5`, and coercing an already-`int` value is the identity
(idempotence). -/
theorem claim7_coerce_under_schema_raises_type_error :
    Schema.validate [(.raw "age", .callableV .intFun)] false [("age", .str "5")]
      false false = .error .typeError ∧
    callableValidate .intFun [("age", .str "5")] = .ok [("age", .int 5)] ∧
    (∀ n : Int, applyFun .intFun (.int n) = .ok (.int n)) := by
  refine ⟨?_, rfl, fun n => rfl⟩
  simp [Schema.validate, schemaValidateCore, validateLoop, entryStep, keyCheck,
    catchSuppress, dcontains, dget, dfind, unwrap]

/-- Whether `len(v)` is defined for the value. -/
def isSized (v : PyVal) : Bool :=
  match pyLen v with
  | .ok _ => true
  | .error _ => false

/-- The claim-side predicate for C8: the value's length lies outside the
inclusive interval from `minL` to `maxL`. -/
def lenOOB (minL maxL : Int) (v : PyVal) : Bool :=
  match pyLen v with
  | .ok n => decide (n < minL) || decide (maxL < n)
  | .error _ => false

/-- Claim C8: for a `Length` validator with inclusive bounds and data whose
values are all sized, `validate` raises `Invalid` if and only if some
value's length lies outside the interval; `Length(min=2, max=4)` succeeds
on `{"tag": "ab"}` and raises `Invalid` on `{"tag": "a"}` and
`{"tag": "abcde"}`.  (The constructor defaults are `lengthMinDefault = 0`
and `sysMaxint`, the very-large unbounded sentinel.) -/
theorem claim8_length_invalid_iff_out_of_bounds :
    (∀ (minL maxL : Int) (data : PyDict),
      data.all (fun kv => isSized kv.2) = true →
      (lengthValidate minL maxL data = .error (.invalid "") ↔
        data.any (fun kv => lenOOB minL maxL kv.2) = true)) ∧
    lengthValidate 2 4 [("tag", .str "ab")] = .ok () ∧
    lengthValidate 2 4 [("tag", .str "a")] = .error (.invalid "") ∧
    lengthValidate 2 4 [("tag", .str "abcde")] = .error (.invalid "") := by
  refine ⟨?_, rfl, rfl, rfl⟩
  intro minL maxL data hs
  induction data with
  | nil => simp [lengthValidate]
  | cons kv rest ih =>
    obtain ⟨k1, v1⟩ := kv
    simp only [List.all_cons, Bool.and_eq_true] at hs
    obtain ⟨h1, h2⟩ := hs
    have hn : ∃ n, pyLen v1 = .ok n := by
      rcases hp : pyLen v1 with e | n
      · rw [isSized, hp] at h1; simp at h1
      · exact ⟨n, rfl⟩
    obtain ⟨n, hn⟩ := hn
    rw [show lengthValidate minL maxL ((k1, v1) :: rest) =
        (match pyLen v1 with
         | .error e => .error e
         | .ok n =>
           if minL ≤ n && n ≤ maxL then lengthValidate minL maxL rest
           else .error (.invalid "")) from rfl, hn]
    simp only [List.any_cons, Bool.or_eq_true]
    by_cases hb : (minL ≤ n && n ≤ maxL) = true
    · rw [if_pos hb]
      have hoob : lenOOB minL maxL v1 = false := by
        simp only [Bool.and_eq_true, decide_eq_true_eq] at hb
        simp [lenOOB, hn, not_lt_of_le hb.1, not_lt_of_le hb.2]
      rw [hoob]
      simpa using ih h2
    · rw [if_neg hb]
      have hoob : lenOOB minL maxL v1 = true := by
        simp only [Bool.and_eq_true, decide_eq_true_eq, not_and_or, not_le] at hb
        rcases hb with hb | hb <;> simp [lenOOB, hn, hb]
      simp [hoob]

/-- Witness for C8 at `{"tag": "a"}` under bounds 2..4. -/
theorem claim8_length_invalid_iff_out_of_bounds_witness :
    ([("tag", PyVal.str "a")].all (fun kv => isSized kv.2) = true) ∧
    (lengthValidate 2 4 [("tag", .str "a")] = .error (.invalid "") ↔
      [("tag", PyVal.str "a")].any (fun kv => lenOOB 2 4 kv.2) = true) :=
  ⟨by decide, claim8_length_invalid_iff_out_of_bounds.1 2 4 _ (by decide)⟩

/-- Counterexample to claim C3 as stated.  First conjunct: validating
`{"user": {"name": 5}}` against `Schema({"user": Schema({"name": str})})`
does NOT raise `Invalid` naming `name` — it succeeds and returns the data
unchanged, because the nested call receives the single-entry mapping
`{"user": ...}` keyed by the outer key, in which the nested schema's key
`name` is absent and therefore skipped.  Second and third conjuncts: the
`suppressException` flag is not passed through to the recursive call's
`suppressException` parameter — on a same-key nested schema whose inner
check fails, the code (flag lands in the dead `partial` slot) returns
`False`, while the spec-worded pass-through variant (`specC3Validate`)
raises `TypeError` from subscripting the recursive call's `False`. -/
theorem claim3_counterexample_nested_checks_nothing :
    Schema.validate [(.raw "user", .schema [(.raw "name", .typ .strTy)] false)]
      false [("user", .dict [("name", .int 5)])] false false =
      .ok (.retDict [("user", .dict [("name", .int 5)])]) ∧
    Schema.validate [(.raw "x", .schema [(.raw "x", .typ .strTy)] false)]
      false [("x", .dict [("x", .int 5)])] false true = .ok .retFalse ∧
    specC3Validate [(.raw "x", .schema [(.raw "x", .typ .strTy)] false)]
      false [("x", .dict [("x", .int 5)])] false true = .error .typeError := by
  refine ⟨?_, ?_, ?_⟩
  · simp [Schema.validate, schemaValidateCore, validateLoop, entryStep, keyCheck,
      catchSuppress, dcontains, dget, dfind, dupdate, unwrap, instanceOf]
  · simp [Schema.validate, schemaValidateCore, validateLoop, entryStep, keyCheck,
      catchSuppress, dcontains, dget, dfind, dupdate, unwrap, instanceOf, typeMsg]
  · simp [specC3Validate, specC3Core, specC3Loop, specC3Entry, keyCheck,
      catchSuppress, dcontains, dget, dfind, dupdate, unwrap, instanceOf, typeMsg]

/-- Claim C3 as amended: for a schema entry whose value is a plain nested
`Schema` and data in which the unwrapped key is present, `Schema.validate`
recursively validates the single-entry mapping keyed by the OUTER key
against the nested schema, passing the outer `suppressException` value
positionally into the recursive call's dead `partial` parameter — the
recursive call itself runs with `suppressException=false` — and writes the
result's entry for that key back into the data (continuing the loop on the
updated data); consequently a nested schema whose entries are keyed
differently from the outer key checks nothing, and both
`{"user": {"name": "x"}}` and `{"user": {"name": 5}}` validate
successfully and unchanged against
`Schema({"user": Schema({"name": str})})`. -/
theorem claim3_amended_nested_schema_write_back :
    (∀ (k : SKey) (ne : List (SKey × SVal)) (nx : Bool)
      (rest : List (SKey × SVal)) (data : PyDict) (pFlag se : Bool),
      dcontains data (unwrap k) = true →
      Schema.validate ((k, .schema ne nx) :: rest) false data pFlag se =
        catchSuppress se
          (match Schema.validate ne nx [(unwrap k, dget data (unwrap k))] se false with
           | .ok (.retDict d) =>
             match dfind d (unwrap k) with
             | some nv => validateLoop rest (dupdate data (unwrap k) nv)
             | Option.none => .error .keyError
           | .ok .retFalse => .error .typeError
           | .error e => .error e)) ∧
    Schema.validate [(.raw "user", .schema [(.raw "name", .typ .strTy)] false)]
      false [("user", .dict [("name", .str "x")])] false false =
      .ok (.retDict [("user", .dict [("name", .str "x")])]) ∧
    Schema.validate [(.raw "user", .schema [(.raw "name", .typ .strTy)] false)]
      false [("user", .dict [("name", .int 5)])] false false =
      .ok (.retDict [("user", .dict [("name", .int 5)])]) := by
  refine ⟨?_, ?_, ?_⟩
  · intro k ne nx rest data pFlag se hc
    simp only [Schema.validate, schemaValidateCore_noextra]
    rw [validateLoop_cons]
    have hstep : entryStep k (.schema ne nx) data =
        match schemaValidateCore ne nx [(unwrap k, dget data (unwrap k))] false with
        | .ok (.retDict d) =>
          match dfind d (unwrap k) with
          | some nv => .ok (dupdate data (unwrap k) nv)
          | Option.none => .error .keyError
        | .ok .retFalse => .error .typeError
        | .error e => .error e := by
      simp only [entryStep, keyCheck_of_contains k data hc, hc, if_true]
    rw [hstep]
    rcases hcore : schemaValidateCore ne nx [(unwrap k, dget data (unwrap k))] false
      with e | vr
    · rfl
    · cases vr with
      | retFalse => rfl
      | retDict d =>
        rcases hfind : dfind d (unwrap k) with _ | nv <;> simp [hfind]
  · simp [Schema.validate, schemaValidateCore, validateLoop, entryStep, keyCheck,
      catchSuppress, dcontains, dget, dfind, dupdate, unwrap, instanceOf]
  · simp [Schema.validate, schemaValidateCore, validateLoop, entryStep, keyCheck,
      catchSuppress, dcontains, dget, dfind, dupdate, unwrap, instanceOf]

/-- Witness for the amended C3 at `{"user": {"name": 5}}` with
`suppressException=true`: the nested branch runs and the result is the
unchanged mapping. -/
theorem claim3_amended_nested_schema_write_back_witness :
    (dcontains [("user", PyVal.dict [("name", PyVal.int 5)])] "user" = true) ∧
    Schema.validate [(.raw "user", .schema [(.raw "name", .typ .strTy)] false)]
      false [("user", .dict [("name", .int 5)])] false true =
      .ok (.retDict [("user", .dict [("name", .int 5)])]) := by
  refine ⟨by decide, ?_⟩
  have h := claim3_amended_nested_schema_write_back.1 (.raw "user")
    [(.raw "name", .typ .strTy)] false [] [("user", .dict [("name", .int 5)])]
    false true (by decide)
  rw [h]
  simp [Schema.validate, schemaValidateCore, validateLoop, entryStep, keyCheck,
    catchSuppress, dcontains, dget, dfind, dupdate, unwrap, instanceOf]
